import Mathlib

/-!
Shallow embedding of `GPIOlcd.py` (class `lcd16x2`), a bit-banged driver for a
16x2 HD44780-compatible LCD.  Pure data is modelled directly; the GPIO side
effects (`GPIO.output`, `time.sleep`) are modelled as explicit effect traces.
Python exceptions are modelled by an `Err` tag together with the state and the
trace of effects already performed at the point the exception is raised
(Python mutations before a raise persist, so the model keeps them).
-/

namespace GPIOlcd

/-- The lines the driver writes: register select, enable, and the 8 data lines
`D0`-`D7` (`data i` is `self._pins[i]`). -/
inductive LineId where
  | rs
  | en
  | data (i : Nat)
deriving DecidableEq

/-- Low-level backend effects: a line write (`GPIO.output`) with the value
written (booleans encoded as 0/1, as Python ints), or a `time.sleep(_DELAY)`. -/
inductive Eff where
  | write (line : LineId) (v : Nat)
  | sleep
deriving DecidableEq

/-- Raise sites of the Python `ValueError`s, tagged with the spec's taxonomy:
`validation` for length/emptiness checks, `encoding` for the non-ASCII check in
`_textToBinary`, `protocol` for `_sendBinary`'s length check, `conversion` for
the `ValueError` that `int(b[n])` itself raises on a non-digit character. -/
inductive Err where
  | validation
  | encoding
  | protocol
  | conversion
deriving DecidableEq

/-- Python's truthiness of a bool when written to a GPIO line. -/
def boolVal (b : Bool) : Nat := if b then 1 else 0

/-- `int(c)` for a single character `c`, modelled on its ASCII behavior: it
succeeds on the decimal digits `'0'`-`'9'` with the digit's value and raises
`ValueError` on other ASCII characters.  Python's `int` also accepts non-ASCII
Unicode decimal digits, which this model maps to `none` instead; no theorem in
this file relies on `charDigit` outside the ASCII range (the driver itself
only ever produces ASCII patterns). -/
def charDigit (c : Char) : Option Nat :=
  if '0' ≤ c ∧ c ≤ '9' then some (c.toNat - 48) else none

/-- The data-pin loop of `_sendBinary`:
`for n in range(8): GPIO.output(self._pins[7 - n], int(b[n])); time.sleep(...)`.
Returns the effects performed and the error, if any, that aborted the loop
(`int(b[n])` raising on a non-digit character). -/
def dataWrites : List Char → Nat → List Eff × Option Err
  | [], _ => ([], none)
  | c :: cs, n =>
    match charDigit c with
    | some d =>
      let r := dataWrites cs (n + 1)
      (Eff.write (LineId.data (7 - n)) d :: Eff.sleep :: r.1, r.2)
    | none => ([], some Err.conversion)

/-- `_sendBinary(b, isData)`: checks `len(b) == 8` (raising otherwise with no
write performed), then sets RS, raises enable, sleeps, runs the data-pin loop,
lowers enable and sleeps.  The Python `type` checks on `b` and `isData` are
compile-time facts here. -/
def sendBinary (b : List Char) (isData : Bool) : List Eff × Option Err :=
  if b.length = 8 then
    let pre := [Eff.write LineId.rs (boolVal isData), Eff.write LineId.en 1, Eff.sleep]
    let r := dataWrites b 0
    match r.2 with
    | none => (pre ++ r.1 ++ [Eff.write LineId.en 0, Eff.sleep], none)
    | some e => (pre ++ r.1, some e)
  else ([], some Err.protocol)

/-- `ord(c) < 128`. -/
def isAscii (c : Char) : Bool := c.toNat < 128

/-- `bin(n)[2:]`: minimal big-endian binary digits of `n` (with `0 ↦ "0"`). -/
def natToBin (n : Nat) : List Char := Nat.toDigits 2 n

/-- The padding step of `_textToBinary`: left-pad with zeros when the length
differs from 8 (Nat subtraction mirrors Python's `"0" * p` being empty for
negative `p`). -/
def padTo8 (l : List Char) : List Char :=
  if l.length ≠ 8 then List.replicate (8 - l.length) '0' ++ l else l

/-- One character's byte in `_textToBinary`. -/
def charToByte (c : Char) : List Char := padTo8 (natToBin c.toNat)

/-- `_textToBinary(text)`: all-ASCII check, then per-character conversion. -/
def textToBinary (text : List Char) : Except Err (List (List Char)) :=
  if text.all isAscii then Except.ok (text.map charToByte) else Except.error Err.encoding

/-- A byte-level transmission event: the pattern handed to `_sendBinary` and
its `isData` flag.  For every pattern the driver itself produces (8 binary
digits), `sendBinary` succeeds, so the byte-level trace determines the
low-level effect trace (see `sendBinary_charToByte`). -/
abbrev Tx := List Char × Bool

/-- Driver state: the mode flags `_display`, `_cursor`, `_blink` and the
cursor position `_CURSORPOS`. -/
structure LcdState where
  display : Bool
  cursor : Bool
  blink : Bool
  cursorPos : Nat
deriving DecidableEq

/-- Result of a public operation: the error raised (if any), the state at
return or at the raise, and the byte-level transmissions performed. -/
structure Outcome where
  err : Option Err
  state : LcdState
  trace : List Tx
deriving DecidableEq

/-- `self._CLEAR`. -/
def CLEARB : List Char := ['0', '0', '0', '0', '0', '0', '0', '1']

/-- `self._HOME`. -/
def HOMEB : List Char := ['0', '0', '0', '0', '0', '0', '1', '0']

/-- `self._SETENTRY`. -/
def SETENTRYB : List Char := ['0', '0', '0', '0', '0', '1', '1', '0']

/-- `self._SETFUNC`. -/
def SETFUNCB : List Char := ['0', '0', '1', '1', '1', '0', '0', '0']

/-- The null byte `"00000000"` used for hidden-region padding. -/
def NULLB : List Char := ['0', '0', '0', '0', '0', '0', '0', '0']

/-- `str(int(flag))` for a bool flag. -/
def boolChar (b : Bool) : Char := if b then '1' else '0'

/-- The display-control pattern `"00001" + D + C + B` built by
`_updateDisplay`. -/
def updateDisplayByte (s : LcdState) : List Char :=
  ['0', '0', '0', '0', '1', boolChar s.display, boolChar s.cursor, boolChar s.blink]

/-- `_updateDisplay()`: transmit the display-control instruction. -/
def updateDisplay (s : LcdState) : LcdState × List Tx :=
  (s, [(updateDisplayByte s, false)])

/-- `clear()`: reset `_CURSORPOS` to 0, then transmit clear, function-set,
display-control (via `_updateDisplay`), entry-mode, home — all instructions. -/
def clear (s : LcdState) : LcdState × List Tx :=
  let s1 : LcdState := { s with cursorPos := 0 }
  (s1, [(CLEARB, false), (SETFUNCB, false)] ++ (updateDisplay s1).2 ++
    [(SETENTRYB, false), (HOMEB, false)])

/-- The 24 null-byte transmissions that pad/skip the hidden region. -/
def nullPad : List Tx := List.replicate 24 (NULLB, true)

/-- Character transmissions for a list of encoded bytes. -/
def charTxs (bytes : List (List Char)) : List Tx := bytes.map (fun b => (b, true))

/-- `setText(text)`.  The Python `type(text) == str` check is a compile-time
fact here.  Mirrors the source: length-32 gate, then the ≤ 16 branch (clear,
send all bytes, pad 24 nulls when `_CURSORPOS == 15` after the loop) or the
two-line branch (clear, send `text[:16]`, 24 nulls, send `text[16:]`).
Each per-byte loop is collapsed to its net effect, which is faithful because
`sendBinary` cannot fail on `_textToBinary` output. -/
def setText (s : LcdState) (text : List Char) : Outcome :=
  if text.length ≤ 32 then
    if text.length ≤ 16 then
      let c := clear s
      match textToBinary text with
      | Except.error e => { err := some e, state := c.1, trace := c.2 }
      | Except.ok bytes =>
        let s2 : LcdState := { c.1 with cursorPos := c.1.cursorPos + bytes.length }
        if s2.cursorPos = 15 then
          { err := none, state := { s2 with cursorPos := s2.cursorPos + 24 },
            trace := c.2 ++ charTxs bytes ++ nullPad }
        else
          { err := none, state := s2, trace := c.2 ++ charTxs bytes }
    else
      let c := clear s
      match textToBinary (text.take 16) with
      | Except.error e => { err := some e, state := c.1, trace := c.2 }
      | Except.ok bytes16 =>
        let s2 : LcdState := { c.1 with cursorPos := c.1.cursorPos + bytes16.length }
        let s3 : LcdState := { s2 with cursorPos := s2.cursorPos + 24 }
        match textToBinary (text.drop 16) with
        | Except.error e =>
          { err := some e, state := s3, trace := c.2 ++ charTxs bytes16 ++ nullPad }
        | Except.ok bytesR =>
          { err := none, state := { s3 with cursorPos := s3.cursorPos + bytesR.length },
            trace := c.2 ++ charTxs bytes16 ++ nullPad ++ charTxs bytesR }
  else { err := some Err.validation, state := s, trace := [] }

/-- One iteration of `append`'s per-character loop: if `_CURSORPOS == 16`,
transmit 24 nulls advancing by 24; then, if `_CURSORPOS != 16`, transmit the
character and advance by 1. -/
def appendStep (s : LcdState) (b : List Char) : LcdState × List Tx :=
  let r : LcdState × List Tx :=
    if s.cursorPos = 16 then ({ s with cursorPos := s.cursorPos + 24 }, nullPad)
    else (s, [])
  if r.1.cursorPos ≠ 16 then ({ r.1 with cursorPos := r.1.cursorPos + 1 }, r.2 ++ [(b, true)])
  else r

/-- `append`'s loop over the encoded bytes. -/
def appendLoop : LcdState → List (List Char) → LcdState × List Tx
  | s, [] => (s, [])
  | s, b :: bs =>
    let r1 := appendStep s b
    let r2 := appendLoop r1.1 bs
    (r2.1, r1.2 ++ r2.2)

/-- `append(text)`: an empty string silently does nothing (the Python
`if text != "":` has no else branch); otherwise the capacity gate, then
`_textToBinary` (evaluated once, before any transmission, as the `for` loop's
iterable), then the per-character loop. -/
def append (s : LcdState) (text : List Char) : Outcome :=
  if text = [] then { err := none, state := s, trace := [] }
  else
    if (s.cursorPos ≤ 16 ∧ s.cursorPos + 24 + text.length ≤ 56) ∨
        (39 ≤ s.cursorPos ∧ s.cursorPos + text.length ≤ 56) then
      match textToBinary text with
      | Except.error e => { err := some e, state := s, trace := [] }
      | Except.ok bytes =>
        let r := appendLoop s bytes
        { err := none, state := r.1, trace := r.2 }
    else { err := some Err.validation, state := s, trace := [] }

/-- `setDisplay(value)` (the `type` check is compile-time here). -/
def setDisplay (s : LcdState) (v : Bool) : LcdState × List Tx :=
  updateDisplay { s with display := v }

/-- `setCursor(value)`. -/
def setCursor (s : LcdState) (v : Bool) : LcdState × List Tx :=
  updateDisplay { s with cursor := v }

/-- `setBlink(value)`. -/
def setBlink (s : LcdState) (v : Bool) : LcdState × List Tx :=
  updateDisplay { s with blink := v }

/-- `displayOn()`. -/
def displayOn (s : LcdState) : LcdState × List Tx := setDisplay s true

/-- `displayOff()`. -/
def displayOff (s : LcdState) : LcdState × List Tx := setDisplay s false

/-- `cursorOn()`. -/
def cursorOn (s : LcdState) : LcdState × List Tx := setCursor s true

/-- `cursorOff()`. -/
def cursorOff (s : LcdState) : LcdState × List Tx := setCursor s false

/-- `blinkOn()`. -/
def blinkOn (s : LcdState) : LcdState × List Tx := setBlink s true

/-- `blinkOff()`. -/
def blinkOff (s : LcdState) : LcdState × List Tx := setBlink s false

/-- The state right after `__init__` succeeds: defaults
`_display = True, _cursor = False, _blink = False`, class default
`_CURSORPOS = 0`, then `self.clear()` (which leaves the position at 0). -/
def initState : LcdState :=
  (clear { display := true, cursor := false, blink := false, cursorPos := 0 }).1

/-- States reachable from construction through the public operations (the
state component of each outcome, whether or not the call raised; the on/off
wrappers are instances of the `setDisplay`/`setCursor`/`setBlink` steps). -/
inductive Reachable : LcdState → Prop where
  | init : Reachable initState
  | stepClear {s : LcdState} : Reachable s → Reachable (clear s).1
  | stepSetText {s : LcdState} (t : List Char) : Reachable s → Reachable (setText s t).state
  | stepAppend {s : LcdState} (t : List Char) : Reachable s → Reachable (append s t).state
  | stepSetDisplay {s : LcdState} (v : Bool) : Reachable s → Reachable (setDisplay s v).1
  | stepSetCursor {s : LcdState} (v : Bool) : Reachable s → Reachable (setCursor s v).1
  | stepSetBlink {s : LcdState} (v : Bool) : Reachable s → Reachable (setBlink s v).1

/-- The cursor-position range claimed reachable: `{0,…,16} ∪ {39,…,56}`. -/
def cursorInRange (p : Nat) : Prop := p ≤ 16 ∨ (39 ≤ p ∧ p ≤ 56)

instance (p : Nat) : Decidable (cursorInRange p) := by
  unfold cursorInRange; infer_instance

/-! Helper lemmas -/

/-- A decimal-digit character converts successfully. -/
lemma charDigit_of_digit {c : Char} (h : '0' ≤ c ∧ c ≤ '9') :
    charDigit c = some (c.toNat - 48) := by
  unfold charDigit
  rw [if_pos h]

/-- The data-pin loop of `_sendBinary` never raises on all-digit input. -/
lemma dataWrites_none : ∀ (l : List Char) (n : Nat),
    (∀ c ∈ l, '0' ≤ c ∧ c ≤ '9') → (dataWrites l n).2 = none := by
  intro l
  induction l with
  | nil => intro n _; rfl
  | cons c cs ih =>
    intro n h
    have hc := charDigit_of_digit (h c (by simp))
    simp only [dataWrites, hc]
    exact ih (n + 1) (fun x hx => h x (by simp [hx]))

/-- Byte encodings of ASCII characters are 8 characters long and consist of
digits only (in fact of `'0'`/`'1'`, but digits suffice for `sendBinary`). -/
lemma charToByte_digits (c : Char) (h : c.toNat < 128) :
    (charToByte c).length = 8 ∧ ∀ x ∈ charToByte c, '0' ≤ x ∧ x ≤ '9' := by
  have key : ∀ n, n < 128 → ((padTo8 (natToBin n)).length = 8 ∧
      (padTo8 (natToBin n)).all (fun x => decide ('0' ≤ x) && decide (x ≤ '9')) = true) := by
    decide
  obtain ⟨h1, h2⟩ := key c.toNat h
  refine ⟨h1, ?_⟩
  intro x hx
  have := List.all_eq_true.mp h2 x hx
  simpa using this

/-- `_sendBinary` succeeds on every byte produced by `_textToBinary`, so the
byte-level transmission trace fully determines the low-level effect trace. -/
lemma sendBinary_charToByte (c : Char) (h : c.toNat < 128) :
    (sendBinary (charToByte c) true).2 = none := by
  obtain ⟨hl, hd⟩ := charToByte_digits c h
  have hw := dataWrites_none (charToByte c) 0 hd
  simp [sendBinary, hl, hw]

/-- Taking a prefix preserves `List.all`. -/
lemma all_take {p : Char → Bool} {l : List Char} (n : Nat) (h : l.all p = true) :
    (l.take n).all p = true := by
  rw [List.all_eq_true] at h ⊢
  exact fun x hx => h x (List.take_subset n l hx)

/-- Dropping a prefix preserves `List.all`. -/
lemma all_drop {p : Char → Bool} {l : List Char} (n : Nat) (h : l.all p = true) :
    (l.drop n).all p = true := by
  rw [List.all_eq_true] at h ⊢
  exact fun x hx => h x (List.drop_subset n l hx)

/-- The numeric value of a binary digit character. -/
def bitVal (c : Char) : Nat := if c = '1' then 1 else 0

/-- On binary digit characters, `int(c)` yields the bit value. -/
lemma charDigit_bin {c : Char} (h : c = '0' ∨ c = '1') :
    charDigit c = some (bitVal c) := by
  rcases h with rfl | rfl <;> decide

/-- Closed form of one `append` loop iteration: at the row boundary the 24-null
skip runs and the character is then transmitted in the same iteration (the
`≠ 16` guard always passes after the skip advanced the position to 40). -/
lemma appendStep_eq (s : LcdState) (b : List Char) :
    appendStep s b =
      if s.cursorPos = 16 then
        ({ s with cursorPos := 41 }, nullPad ++ [(b, true)])
      else
        ({ s with cursorPos := s.cursorPos + 1 }, [(b, true)]) := by
  by_cases h : s.cursorPos = 16 <;>
    simp [appendStep, h]

/-- One `append` loop iteration only moves the cursor: mode flags unchanged. -/
lemma appendStep_flags (s : LcdState) (b : List Char) :
    (appendStep s b).1.display = s.display ∧ (appendStep s b).1.cursor = s.cursor ∧
      (appendStep s b).1.blink = s.blink := by
  rw [appendStep_eq]
  by_cases h : s.cursorPos = 16 <;> simp [h]

/-- `append`'s loop only moves the cursor: mode flags unchanged. -/
lemma appendLoop_flags : ∀ (bs : List (List Char)) (s : LcdState),
    (appendLoop s bs).1.display = s.display ∧ (appendLoop s bs).1.cursor = s.cursor ∧
      (appendLoop s bs).1.blink = s.blink := by
  intro bs
  induction bs with
  | nil => intro s; exact ⟨rfl, rfl, rfl⟩
  | cons b bs ih =>
    intro s
    obtain ⟨i1, i2, i3⟩ := ih (appendStep s b).1
    obtain ⟨j1, j2, j3⟩ := appendStep_flags s b
    have hfold : (appendLoop s (b :: bs)).1 = (appendLoop (appendStep s b).1 bs).1 := rfl
    rw [hfold]
    exact ⟨i1.trans j1, i2.trans j2, i3.trans j3⟩

/-- `append`'s loop keeps the cursor inside `{0,…,16} ∪ {39,…,56}` whenever it
starts with enough room, in the sense of the capacity gate specialised to the
remaining characters. -/
lemma appendLoop_range : ∀ (bs : List (List Char)) (s : LcdState),
    ((s.cursorPos ≤ 16 ∧ s.cursorPos + 24 + bs.length ≤ 56) ∨
      (39 ≤ s.cursorPos ∧ s.cursorPos + bs.length ≤ 56)) →
    cursorInRange (appendLoop s bs).1.cursorPos := by
  intro bs
  induction bs with
  | nil =>
    intro s h
    have hid : (appendLoop s []).1 = s := rfl
    rw [hid]
    unfold cursorInRange
    simp only [List.length_nil] at h
    omega
  | cons b bs ih =>
    intro s h
    have hfold : (appendLoop s (b :: bs)).1 = (appendLoop (appendStep s b).1 bs).1 := rfl
    rw [hfold]
    apply ih
    rw [appendStep_eq]
    simp only [List.length_cons] at h
    by_cases h16 : s.cursorPos = 16 <;> simp [h16] <;> omega

/-- `setText` either leaves the cursor where it was (length validation
failure) or puts it inside `{0,…,16} ∪ {39,…,56}`. -/
lemma setText_cursor (s : LcdState) (t : List Char) :
    (setText s t).state.cursorPos = s.cursorPos ∨
      cursorInRange (setText s t).state.cursorPos := by
  by_cases h32 : t.length ≤ 32
  · right
    by_cases h16 : t.length ≤ 16
    · by_cases hA : t.all isAscii
      · simp [setText, h32, h16, textToBinary, hA, clear, updateDisplay, cursorInRange]
        split <;> simp <;> omega
      · simp [setText, h32, h16, textToBinary, hA, clear, updateDisplay, cursorInRange]
    · by_cases hT : (t.take 16).all isAscii
      · by_cases hD : (t.drop 16).all isAscii
        · simp [setText, h32, h16, textToBinary, hT, hD, clear, updateDisplay, cursorInRange]
          omega
        · simp [setText, h32, h16, textToBinary, hT, hD, clear, updateDisplay, cursorInRange]
          omega
      · simp [setText, h32, h16, textToBinary, hT, clear, updateDisplay, cursorInRange]
  · left
    simp [setText, h32]

/-- `append` either leaves the cursor where it was (no-op or failure) or puts
it inside `{0,…,16} ∪ {39,…,56}`. -/
lemma append_cursor (s : LcdState) (t : List Char) :
    (append s t).state.cursorPos = s.cursorPos ∨
      cursorInRange (append s t).state.cursorPos := by
  by_cases he : t = []
  · left; simp [append, he]
  · by_cases hc : (s.cursorPos ≤ 16 ∧ s.cursorPos + 24 + t.length ≤ 56) ∨
        (39 ≤ s.cursorPos ∧ s.cursorPos + t.length ≤ 56)
    · by_cases hA : t.all isAscii
      · right
        have hrw : append s t =
            { err := none,
              state := (appendLoop s (t.map charToByte)).1,
              trace := (appendLoop s (t.map charToByte)).2 } := by
          simp [append, he, hc, textToBinary, hA]
        rw [hrw]
        show cursorInRange (appendLoop s (t.map charToByte)).1.cursorPos
        apply appendLoop_range
        simpa [List.length_map] using hc
      · left; simp [append, he, hc, textToBinary, hA]
    · left; simp [append, he, hc]

/-- `setText` never changes the mode flags (on success or failure). -/
lemma setText_flags (s : LcdState) (t : List Char) :
    (setText s t).state.display = s.display ∧ (setText s t).state.cursor = s.cursor ∧
      (setText s t).state.blink = s.blink := by
  by_cases h32 : t.length ≤ 32
  · by_cases h16 : t.length ≤ 16
    · by_cases hA : t.all isAscii
      · simp only [setText, h32, h16, textToBinary, hA, if_true, clear, updateDisplay]
        split <;> simp
      · simp [setText, h32, h16, textToBinary, hA, clear, updateDisplay]
    · by_cases hT : (t.take 16).all isAscii
      · by_cases hD : (t.drop 16).all isAscii <;>
          simp [setText, h32, h16, textToBinary, hT, hD, clear, updateDisplay]
      · simp [setText, h32, h16, textToBinary, hT, clear, updateDisplay]
  · simp [setText, h32]

/-- `append` never changes the mode flags (on success or failure). -/
lemma append_flags (s : LcdState) (t : List Char) :
    (append s t).state.display = s.display ∧ (append s t).state.cursor = s.cursor ∧
      (append s t).state.blink = s.blink := by
  by_cases he : t = []
  · simp [append, he]
  · by_cases hc : (s.cursorPos ≤ 16 ∧ s.cursorPos + 24 + t.length ≤ 56) ∨
        (39 ≤ s.cursorPos ∧ s.cursorPos + t.length ≤ 56)
    · by_cases hA : t.all isAscii
      · have h := appendLoop_flags (t.map charToByte) s
        simp [append, he, hc, textToBinary, hA]
        exact ⟨h.1, h.2.1, h.2.2⟩
      · simp [append, he, hc, textToBinary, hA]
    · simp [append, he, hc]

/-! Claim theorems -/

/-- Claim C2, counterexample: `append("")` does not raise — it returns with no
error, no transmissions, and the state unchanged, because the Python
`if text != "":` guard has no else branch. -/
theorem C2_counterexample :
    append initState [] = { err := none, state := initState, trace := [] } := by
  rfl

/-- Claim C2, amended: for every state, `append` with empty text is a silent
no-op: no error is raised, no transmission is performed, and the state (cursor
position and mode flags) is unchanged. -/
theorem C2_amended (s : LcdState) :
    append s [] = { err := none, state := s, trace := [] } := by
  simp [append]

/-- Claim C3, counterexample: from cursor position 16, appending the single
character `'A'` performs the 24-null boundary skip and transmits `'A'` within
that same (and only) iteration, ending at cursor position 41 — the character is
not deferred to a later iteration. -/
theorem C3_counterexample :
    append { initState with cursorPos := 16 } ['A'] =
      { err := none, state := { initState with cursorPos := 41 },
        trace := nullPad ++ [(charToByte 'A', true)] } := by
  decide

/-- Claim C3, amended: in each iteration of `append`'s per-character loop, if
the cursor position is 16 the 24-null skip runs first and the character is then
transmitted in the same iteration (position advances 16 → 40 → 41); otherwise
the character alone is transmitted. The boundary skip and the character write
are not mutually exclusive, and no character is deferred. -/
theorem C3_amended (s : LcdState) (b : List Char) :
    appendStep s b =
      if s.cursorPos = 16 then
        ({ s with cursorPos := 41 }, nullPad ++ [(b, true)])
      else
        ({ s with cursorPos := s.cursorPos + 1 }, [(b, true)]) :=
  appendStep_eq s b

/-- Claim C5: `clear()` sets the cursor position to 0 and transmits exactly
these 5 instruction bytes (`isData = false`) in order: clear-display
`00000001`, function-set `00111000`, display-control `00001DCB` from the
current flags, entry-mode `00000110`, return-home `00000010`. -/
theorem C5_clear_spec (s : LcdState) :
    clear s = ({ s with cursorPos := 0 },
      [(['0', '0', '0', '0', '0', '0', '0', '1'], false),
       (['0', '0', '1', '1', '1', '0', '0', '0'], false),
       (['0', '0', '0', '0', '1', boolChar s.display, boolChar s.cursor, boolChar s.blink], false),
       (['0', '0', '0', '0', '0', '1', '1', '0'], false),
       (['0', '0', '0', '0', '0', '0', '1', '0'], false)]) := by
  rfl

/-- Claim C8, counterexample: the pattern `"22222222"` is 8 characters long but
not composed of binary digits, yet `_sendBinary` raises no error and performs
line writes (21 effects: RS, enable up, 8 data writes with value 2, enable
down, and the sleeps) — digit composition is never validated. -/
theorem C8_counterexample :
    (sendBinary ['2', '2', '2', '2', '2', '2', '2', '2'] true).2 = none ∧
    (sendBinary ['2', '2', '2', '2', '2', '2', '2', '2'] true).1 ≠ [] := by
  decide

/-- Claim C8, amended: `_sendBinary` fails with an error and no line writes
performed exactly for patterns that are not 8 characters long (ProtocolError,
empty effect trace); for every 8-character pattern — digits or not — the
register-select and enable writes are performed before any character is
examined, so a length-8 call never fails without writes.  Digit composition is
never validated: every 8-character pattern of decimal digits (binary or not,
e.g. `"22222222"`, see `C8_counterexample`) is transmitted without error; a
character that `int` rejects, such as `'a'`, raises only mid-transmission,
after those writes. -/
theorem C8_amended :
    (∀ (b : List Char) (d : Bool), b.length ≠ 8 → sendBinary b d = ([], some Err.protocol)) ∧
    (∀ (b : List Char) (d : Bool), b.length = 8 →
      (sendBinary b d).1.take 3 =
        [Eff.write LineId.rs (boolVal d), Eff.write LineId.en 1, Eff.sleep] ∧
      (sendBinary b d).1 ≠ []) ∧
    (∀ (b : List Char) (d : Bool), b.length = 8 → (∀ c ∈ b, '0' ≤ c ∧ c ≤ '9') →
      (sendBinary b d).2 = none) ∧
    sendBinary ['a', '0', '0', '0', '0', '0', '0', '0'] false =
      ([Eff.write LineId.rs 0, Eff.write LineId.en 1, Eff.sleep], some Err.conversion) := by
  refine ⟨?_, ?_, ?_, by decide⟩
  · intro b d h
    simp [sendBinary, h]
  · intro b d h
    cases hE : (dataWrites b 0).2 <;> simp [sendBinary, h, hE]
  · intro b d h hd
    have hw := dataWrites_none b 0 hd
    simp [sendBinary, h, hw]

/-- Claim C8, witness: a 1-character pattern is rejected with no writes; the
8-character non-binary pattern `"22222222"` performs the register-select and
enable writes; an 8-digit binary pattern is transmitted without error. -/
theorem C8_witness :
    sendBinary ['1'] true = ([], some Err.protocol) ∧
    (sendBinary ['2', '2', '2', '2', '2', '2', '2', '2'] true).1.take 3 =
      [Eff.write LineId.rs 1, Eff.write LineId.en 1, Eff.sleep] ∧
    (sendBinary ['0', '1', '0', '1', '0', '1', '0', '1'] false).2 = none := by
  refine ⟨C8_amended.1 ['1'] true (by decide), ?_,
    C8_amended.2.2.1 ['0', '1', '0', '1', '0', '1', '0', '1'] false (by decide) (by decide)⟩
  exact (C8_amended.2.1 ['2', '2', '2', '2', '2', '2', '2', '2'] true (by decide)).1

/-- Claim C9: a successful transmit of an 8-bit binary pattern produces exactly
this effect sequence: register-select set to `isData`, enable raised, a sleep,
then for each `n` from 0 to 7 the pattern bit `n` (counted from the
most-significant end) written to data line `7 − n` followed by a sleep, then
enable lowered and one final sleep — so all 8 data writes precede the falling
edge of enable. -/
theorem C9_transmit_spec (c0 c1 c2 c3 c4 c5 c6 c7 : Char) (d : Bool)
    (h0 : c0 = '0' ∨ c0 = '1') (h1 : c1 = '0' ∨ c1 = '1')
    (h2 : c2 = '0' ∨ c2 = '1') (h3 : c3 = '0' ∨ c3 = '1')
    (h4 : c4 = '0' ∨ c4 = '1') (h5 : c5 = '0' ∨ c5 = '1')
    (h6 : c6 = '0' ∨ c6 = '1') (h7 : c7 = '0' ∨ c7 = '1') :
    sendBinary [c0, c1, c2, c3, c4, c5, c6, c7] d =
      ([Eff.write LineId.rs (boolVal d), Eff.write LineId.en 1, Eff.sleep,
        Eff.write (LineId.data 7) (bitVal c0), Eff.sleep,
        Eff.write (LineId.data 6) (bitVal c1), Eff.sleep,
        Eff.write (LineId.data 5) (bitVal c2), Eff.sleep,
        Eff.write (LineId.data 4) (bitVal c3), Eff.sleep,
        Eff.write (LineId.data 3) (bitVal c4), Eff.sleep,
        Eff.write (LineId.data 2) (bitVal c5), Eff.sleep,
        Eff.write (LineId.data 1) (bitVal c6), Eff.sleep,
        Eff.write (LineId.data 0) (bitVal c7), Eff.sleep,
        Eff.write LineId.en 0, Eff.sleep], none) := by
  have e0 := charDigit_bin h0
  have e1 := charDigit_bin h1
  have e2 := charDigit_bin h2
  have e3 := charDigit_bin h3
  have e4 := charDigit_bin h4
  have e5 := charDigit_bin h5
  have e6 := charDigit_bin h6
  have e7 := charDigit_bin h7
  simp [sendBinary, dataWrites, e0, e1, e2, e3, e4, e5, e6, e7]

/-- Claim C9, witness: the sequence at the concrete pattern `"01000001"`
(character `'A'`) sent as data. -/
theorem C9_witness :
    sendBinary ['0', '1', '0', '0', '0', '0', '0', '1'] true =
      ([Eff.write LineId.rs 1, Eff.write LineId.en 1, Eff.sleep,
        Eff.write (LineId.data 7) 0, Eff.sleep,
        Eff.write (LineId.data 6) 1, Eff.sleep,
        Eff.write (LineId.data 5) 0, Eff.sleep,
        Eff.write (LineId.data 4) 0, Eff.sleep,
        Eff.write (LineId.data 3) 0, Eff.sleep,
        Eff.write (LineId.data 2) 0, Eff.sleep,
        Eff.write (LineId.data 1) 0, Eff.sleep,
        Eff.write (LineId.data 0) 1, Eff.sleep,
        Eff.write LineId.en 0, Eff.sleep], none) := by
  rw [C9_transmit_spec '0' '1' '0' '0' '0' '0' '0' '1' true
    (by decide) (by decide) (by decide) (by decide)
    (by decide) (by decide) (by decide) (by decide)]
  decide

/-- Claim C1, counterexample: `setText` on the 16-character string
`"ABCDEFGHIJKLMNOP"` ends at cursor position 16 (not 40) and transmits only 21
bytes (5 clear instructions + 16 characters, no null padding), while on the
15-character string `"ABCDEFGHIJKLMNO"` the 24-null padding does fire (44
transmissions, cursor ends at 39): the `== 15` check runs after the loop's
increments, so it fires at length 15, not 16. -/
theorem C1_counterexample :
    (setText initState "ABCDEFGHIJKLMNOP".toList).state.cursorPos = 16 ∧
    (setText initState "ABCDEFGHIJKLMNOP".toList).trace.length = 21 ∧
    (setText initState "ABCDEFGHIJKLMNO".toList).state.cursorPos = 39 ∧
    (setText initState "ABCDEFGHIJKLMNO".toList).trace.length = 44 := by
  decide

/-- Claim C1, amended: for every ASCII string of length at most 16, `setText`
transmits (after the clear) the encoded characters followed by the 24 null
transmissions exactly when the length is 15 — the post-loop check compares the
already-incremented cursor position against 15 — leaving the cursor at 39;
for every other length (including exactly 16) no padding is transmitted and
the cursor ends at the text's length, the hidden region staying unpadded. -/
theorem C1_amended (s : LcdState) (t : List Char)
    (hA : t.all isAscii = true) (hL : t.length ≤ 16) :
    setText s t =
      if t.length = 15 then
        { err := none, state := { s with cursorPos := 39 },
          trace := (clear s).2 ++ charTxs (t.map charToByte) ++ nullPad }
      else
        { err := none, state := { s with cursorPos := t.length },
          trace := (clear s).2 ++ charTxs (t.map charToByte) } := by
  have h32 : t.length ≤ 32 := by omega
  by_cases h15 : t.length = 15 <;>
    simp [setText, textToBinary, hA, hL, h32, h15, clear, updateDisplay]

/-- Claim C1, witness: the amended theorem at the 15-character string (padding
fires, cursor 39) — hypotheses discharged concretely. -/
theorem C1_witness :
    (setText initState "ABCDEFGHIJKLMNO".toList).state.cursorPos = 39 := by
  rw [C1_amended initState "ABCDEFGHIJKLMNO".toList (by decide) (by decide)]
  decide

/-- Claim C6: for every non-empty text, `append` raises ValidationError exactly
when NOT (cursor ≤ 16 and cursor + 24 + length ≤ 56) and NOT (cursor ≥ 39 and
cursor + length ≤ 56); and for ASCII text it succeeds exactly when that
capacity condition holds. -/
theorem C6_capacity (s : LcdState) (t : List Char) (hne : t ≠ []) :
    ((append s t).err = some Err.validation ↔
      ¬ ((s.cursorPos ≤ 16 ∧ s.cursorPos + 24 + t.length ≤ 56) ∨
         (39 ≤ s.cursorPos ∧ s.cursorPos + t.length ≤ 56))) ∧
    (t.all isAscii = true →
      ((append s t).err = none ↔
        ((s.cursorPos ≤ 16 ∧ s.cursorPos + 24 + t.length ≤ 56) ∨
         (39 ≤ s.cursorPos ∧ s.cursorPos + t.length ≤ 56)))) := by
  by_cases hc : (s.cursorPos ≤ 16 ∧ s.cursorPos + 24 + t.length ≤ 56) ∨
      (39 ≤ s.cursorPos ∧ s.cursorPos + t.length ≤ 56)
  · constructor
    · rw [iff_false_intro (not_not_intro hc), iff_false]
      intro habs
      by_cases hA : t.all isAscii <;>
        simp [append, hne, hc, textToBinary, hA] at habs
    · intro hA
      simp [append, hne, hc, textToBinary, hA]
  · constructor
    · simp [append, hne, hc]
    · intro hA
      simp [append, hne, hc]

/-- Claim C6, witness: appending 4 characters at cursor position 50 succeeds
(50 + 4 ≤ 56, cursor ≥ 39 branch), while appending 30 characters at cursor
position 10 fails with ValidationError (10 + 24 + 30 = 64 > 56). -/
theorem C6_witness :
    (append { initState with cursorPos := 50 } "abcd".toList).err = none ∧
    (append { initState with cursorPos := 10 } (List.replicate 30 'x')).err =
      some Err.validation := by
  constructor
  · exact ((C6_capacity { initState with cursorPos := 50 } "abcd".toList
      (by decide)).2 (by decide)).mpr (by decide)
  · exact ((C6_capacity { initState with cursorPos := 10 } (List.replicate 30 'x')
      (by decide)).1).mpr (by decide)

/-- Claim C7: for every ASCII string of length 17 to 32, `setText` performs the
full clear, then transmits the first 16 encoded characters, then 24 null
bytes, then the remaining characters, in that order, ending at cursor position
length + 24 (= 42 for an 18-character string, see the witness). -/
theorem C7_two_line (s : LcdState) (t : List Char) (hA : t.all isAscii = true)
    (h17 : 17 ≤ t.length) (h32 : t.length ≤ 32) :
    setText s t =
      { err := none, state := { s with cursorPos := t.length + 24 },
        trace := (clear s).2 ++ charTxs ((t.take 16).map charToByte) ++ nullPad ++
          charTxs ((t.drop 16).map charToByte) } := by
  have hT := all_take (p := isAscii) (l := t) 16 hA
  have hD := all_drop (p := isAscii) (l := t) 16 hA
  have hgt : ¬ t.length ≤ 16 := by omega
  simp [setText, textToBinary, hT, hD, h32, hgt, clear, updateDisplay]
  omega

/-- Claim C7, witness: the 18-character string `"ABCDEFGHIJKLMNOPQR"` — cursor
ends at 42 (= 18 + 24). -/
theorem C7_witness :
    (setText initState "ABCDEFGHIJKLMNOPQR".toList).state.cursorPos = 42 := by
  rw [C7_two_line initState "ABCDEFGHIJKLMNOPQR".toList
    (by decide) (by decide) (by decide)]
  decide

/-- Claim C4, counterexample: `setText` with the non-ASCII single character of
code point 200 (length 1 ≤ 32), called at cursor position 5, reports failure
(EncodingError) yet has already transmitted (the 5 clear instructions) and has
changed `cursorPosition` from 5 to 0 — the failure is not detected before
transmission begins, because `setText` runs `clear()` before encoding. -/
theorem C4_counterexample :
    (setText { initState with cursorPos := 5 } [Char.ofNat 200]).err = some Err.encoding ∧
    (setText { initState with cursorPos := 5 } [Char.ofNat 200]).trace ≠ [] ∧
    (setText { initState with cursorPos := 5 } [Char.ofNat 200]).state.cursorPos = 0 := by
  decide

/-- Claim C4, amended: no failing operation changes the mode flags; a failing
`append` performs no transmission and leaves the state unchanged (encoding is
validated before its loop, so even the boundary-skip cannot precede a
failure); `setText` failing with ValidationError (length > 32) performs no
transmission and leaves the state unchanged; but `setText` on every non-ASCII
string of length at most 32 fails only after the full clear has run — its
trace begins with the 5 clear instructions and the cursor is reset: when the
length is at most 16, or the first 16 characters already contain the offending
one, the trace is exactly the clear (cursor 0); when the text is longer than
16 with its first 16 characters ASCII, the 16 characters and the 24 nulls are
also transmitted (cursor 40) before the error is raised. -/
theorem C4_amended (s : LcdState) (t : List Char) :
    ((setText s t).state.display = s.display ∧ (setText s t).state.cursor = s.cursor ∧
      (setText s t).state.blink = s.blink) ∧
    ((append s t).state.display = s.display ∧ (append s t).state.cursor = s.cursor ∧
      (append s t).state.blink = s.blink) ∧
    ((append s t).err ≠ none →
      append s t = { err := (append s t).err, state := s, trace := [] }) ∧
    ((setText s t).err = some Err.validation →
      setText s t = { err := some Err.validation, state := s, trace := [] }) ∧
    (t.length ≤ 16 → t.all isAscii = false →
      setText s t =
        { err := some Err.encoding, state := { s with cursorPos := 0 },
          trace := (clear s).2 }) ∧
    (16 < t.length → t.length ≤ 32 → (t.take 16).all isAscii = false →
      setText s t =
        { err := some Err.encoding, state := { s with cursorPos := 0 },
          trace := (clear s).2 }) ∧
    (16 < t.length → t.length ≤ 32 → (t.take 16).all isAscii = true →
      (t.drop 16).all isAscii = false →
      setText s t =
        { err := some Err.encoding, state := { s with cursorPos := 40 },
          trace := (clear s).2 ++ charTxs ((t.take 16).map charToByte) ++ nullPad }) ∧
    (t.length ≤ 32 → t.all isAscii = false →
      (setText s t).err = some Err.encoding ∧
      (setText s t).trace.take 5 = (clear s).2) := by
  have p5 : t.length ≤ 16 → t.all isAscii = false →
      setText s t =
        { err := some Err.encoding, state := { s with cursorPos := 0 },
          trace := (clear s).2 } := by
    intro h16 hA
    have h32 : t.length ≤ 32 := by omega
    simp [setText, h32, h16, textToBinary, hA, clear, updateDisplay]
  have p6 : 16 < t.length → t.length ≤ 32 → (t.take 16).all isAscii = false →
      setText s t =
        { err := some Err.encoding, state := { s with cursorPos := 0 },
          trace := (clear s).2 } := by
    intro hgt h32 hT
    have h16 : ¬ t.length ≤ 16 := by omega
    simp [setText, h32, h16, textToBinary, hT, clear, updateDisplay]
  have p7 : 16 < t.length → t.length ≤ 32 → (t.take 16).all isAscii = true →
      (t.drop 16).all isAscii = false →
      setText s t =
        { err := some Err.encoding, state := { s with cursorPos := 40 },
          trace := (clear s).2 ++ charTxs ((t.take 16).map charToByte) ++ nullPad } := by
    intro hgt h32 hT hD
    have h16 : ¬ t.length ≤ 16 := by omega
    simp [setText, h32, h16, textToBinary, hT, hD, clear, updateDisplay]
    omega
  have p8 : t.length ≤ 32 → t.all isAscii = false →
      (setText s t).err = some Err.encoding ∧
      (setText s t).trace.take 5 = (clear s).2 := by
    intro h32 hA
    by_cases h16 : t.length ≤ 16
    · rw [p5 h16 hA]
      exact ⟨rfl, by simp [clear, updateDisplay]⟩
    · by_cases hT : (t.take 16).all isAscii
      · have hD : (t.drop 16).all isAscii = false := by
          rw [← List.take_append_drop 16 t, List.all_append] at hA
          simpa [hT] using hA
        rw [p7 (by omega) h32 hT hD]
        exact ⟨rfl, by simp [clear, updateDisplay]⟩
      · rw [p6 (by omega) h32 (by simpa using hT)]
        exact ⟨rfl, by simp [clear, updateDisplay]⟩
  refine ⟨setText_flags s t, append_flags s t, ?_, ?_, p5, p6, p7, p8⟩
  · by_cases he : t = []
    · simp [append, he]
    · by_cases hc : (s.cursorPos ≤ 16 ∧ s.cursorPos + 24 + t.length ≤ 56) ∨
          (39 ≤ s.cursorPos ∧ s.cursorPos + t.length ≤ 56)
      · by_cases hA : t.all isAscii <;>
          simp [append, he, hc, textToBinary, hA]
      · simp [append, he, hc]
  · by_cases h32 : t.length ≤ 32
    · by_cases h16 : t.length ≤ 16
      · by_cases hA : t.all isAscii
        · intro habs
          exfalso
          revert habs
          simp only [setText, h32, h16, textToBinary, hA, if_true, clear, updateDisplay]
          split <;> simp
        · intro habs
          exfalso
          revert habs
          simp [setText, h32, h16, textToBinary, hA]
      · by_cases hT : (t.take 16).all isAscii
        · by_cases hD : (t.drop 16).all isAscii <;>
            (intro habs; exfalso; revert habs;
             simp [setText, h32, h16, textToBinary, hT, hD])
        · intro habs
          exfalso
          revert habs
          simp [setText, h32, h16, textToBinary, hT]
    · simp [setText, h32]

/-- Claim C4, witness: the amended theorem's EncodingError clause at cursor
position 5 with the single character of code point 200. -/
theorem C4_witness :
    setText { initState with cursorPos := 5 } [Char.ofNat 200] =
      { err := some Err.encoding, state := { initState with cursorPos := 0 },
        trace := (clear { initState with cursorPos := 5 }).2 } := by
  have h := (C4_amended { initState with cursorPos := 5 } [Char.ofNat 200]).2.2.2.2.1
    (by decide) (by decide)
  rw [h]

/-- Claim C10: every state reachable from construction through the public
operations (including the state left behind by a failed call) has its cursor
position in `{0,…,16} ∪ {39,…,56}`: never strictly between 16 and 39, never
beyond 56. -/
theorem C10_reachable_range (s : LcdState) (h : Reachable s) :
    cursorInRange s.cursorPos := by
  induction h with
  | init => decide
  | stepClear _ ih =>
    unfold cursorInRange
    left
    simp [clear]
  | stepSetText t _ ih =>
    rcases setText_cursor _ t with heq | hin
    · rw [heq]; exact ih
    · exact hin
  | stepAppend t _ ih =>
    rcases append_cursor _ t with heq | hin
    · rw [heq]; exact ih
    · exact hin
  | stepSetDisplay v _ ih => simpa [setDisplay, updateDisplay] using ih
  | stepSetCursor v _ ih => simpa [setCursor, updateDisplay] using ih
  | stepSetBlink v _ ih => simpa [setBlink, updateDisplay] using ih

/-- Claim C10, witness: the range invariant at a concrete reachable state —
construction followed by `setText("HI")`. -/
theorem C10_witness :
    cursorInRange ((setText initState ['H', 'I']).state.cursorPos) :=
  C10_reachable_range _ (Reachable.stepSetText ['H', 'I'] Reachable.init)

end GPIOlcd
